import Mathlib

/-!
Shallow embedding of the shopping-cart aggregate of the storefront
(`src/stores` cart store): the cart item identity derivation
`generateCartItemId`, the totals computation `calculateTotals`, and the
mutating operations `addItem`, `removeItem`, `updateQuantity`, `clearCart`
of `useCartStore`, together with the persistence `partialize` step.

Numbers are modelled exactly: product and variation ids as `Nat`,
quantities as `Int`, prices as `ℚ`.  JavaScript truthiness tests on
optional numbers (`if (variationId)`, `maxQty ? _ : _`) are modelled
faithfully: a value is truthy when it is present and non-zero.
-/

/-- Lexicographic comparison of character lists: the ascending order the
`localeCompare`-based comparator induces on attribute keys. -/
def charsLe : List Char → List Char → Bool
  | [], _ => true
  | _ :: _, [] => false
  | a :: as, b :: bs => if a < b then true else if b < a then false else charsLe as bs

/-- The ordering used to sort attribute entries: compare entries by key
(`.sort(([a], [b]) => a.localeCompare(b))`). -/
def attrLe (x y : String × String) : Prop := charsLe x.1.data y.1.data = true

instance : DecidableRel attrLe := fun x y => by unfold attrLe; infer_instance

/-- `generateCartItemId` from the cart store: `String(productId)`, then
`-variationId` when `variationId` is truthy, then `-key:value-key:value...`
over the attribute entries sorted by key, when attributes are non-empty. -/
def generateCartItemId (productId : Nat) (variationId : Option Nat)
    (attributes : Option (List (String × String))) : String :=
  let id := toString productId
  let id :=
    match variationId with
    | some v => if v ≠ 0 then id ++ "-" ++ toString v else id
    | none => id
  match attributes with
  | some attrs =>
    if attrs.length > 0 then
      let attrString :=
        String.intercalate "-" ((List.insertionSort attrLe attrs).map (fun kv => kv.1 ++ ":" ++ kv.2))
      id ++ "-" ++ attrString
    else id
  | none => id

/-- The payload accepted by `addItem`: a `CartItem` without its derived `id`
(`Omit<CartItem, 'id'>`). -/
structure CartItemInput where
  productId : Nat
  variationId : Option Nat := none
  name : String := ""
  slug : String := ""
  price : ℚ := 0
  regularPrice : Option ℚ := none
  quantity : Int := 1
  image : String := ""
  attributes : Option (List (String × String)) := none
  maxQuantity : Option Int := none
deriving DecidableEq

/-- A cart line item (`CartItem` interface). -/
structure CartItem where
  id : String
  productId : Nat
  variationId : Option Nat
  name : String
  slug : String
  price : ℚ
  regularPrice : Option ℚ
  quantity : Int
  image : String
  attributes : Option (List (String × String))
  maxQuantity : Option Int
deriving DecidableEq

/-- The spread `{ ...item, id }` forming a `CartItem` from the input plus the
derived id. -/
def CartItemInput.withId (item : CartItemInput) (id : String) : CartItem :=
  { id := id
    productId := item.productId
    variationId := item.variationId
    name := item.name
    slug := item.slug
    price := item.price
    regularPrice := item.regularPrice
    quantity := item.quantity
    image := item.image
    attributes := item.attributes
    maxQuantity := item.maxQuantity }

/-- The cart state (`CartState`): the item list plus the transient drawer
visibility flag. -/
structure Cart where
  items : List CartItem
  isOpen : Bool
deriving DecidableEq

/-- The initial store state: `items: [], isOpen: false`. -/
def emptyCart : Cart := { items := [], isOpen := false }

/-- Result record of `calculateTotals`. -/
structure Totals where
  total : ℚ
  subtotal : ℚ
  itemCount : Int
deriving DecidableEq

/-- `calculateTotals` from the cart store: a single reduce over the items
accumulating `total`, `subtotal` and `itemCount`. -/
def calculateTotals (items : List CartItem) : Totals :=
  items.foldl
    (fun acc item =>
      { total := acc.total + item.price * (item.quantity : ℚ)
        subtotal := acc.subtotal + item.price * (item.quantity : ℚ)
        itemCount := acc.itemCount + item.quantity })
    { total := 0, subtotal := 0, itemCount := 0 }

/-- The `total` computed getter: recomputed from `items` on access. -/
def Cart.total (c : Cart) : ℚ := (calculateTotals c.items).total

/-- The `subtotal` computed getter: recomputed from `items` on access. -/
def Cart.subtotal (c : Cart) : ℚ := (calculateTotals c.items).subtotal

/-- The `itemCount` computed getter: recomputed from `items` on access. -/
def Cart.itemCount (c : Cart) : Int := (calculateTotals c.items).itemCount

/-- The `isEmpty` computed getter. -/
def Cart.isEmpty (c : Cart) : Bool := c.items.length == 0

/-- `addItem`: derive the id; when an item with this id exists, replace its
quantity by `existing.quantity + item.quantity` clamped by the existing
item's `maxQuantity` when that is truthy; otherwise append `{ ...item, id }`.
Either way the drawer opens. -/
def addItem (item : CartItemInput) (c : Cart) : Cart :=
  let id := generateCartItemId item.productId item.variationId item.attributes
  let existingItemIndex := c.items.findIdx (fun i => i.id == id)
  if h : existingItemIndex < c.items.length then
    let existingItem := c.items.get ⟨existingItemIndex, h⟩
    let newQuantity := existingItem.quantity + item.quantity
    let finalQuantity :=
      match existingItem.maxQuantity with
      | some maxQty => if maxQty ≠ 0 then min newQuantity maxQty else newQuantity
      | none => newQuantity
    { items := c.items.set existingItemIndex { existingItem with quantity := finalQuantity }
      isOpen := true }
  else
    { items := c.items ++ [item.withId id], isOpen := true }

/-- `removeItem`: filter out the item with the given id (`isOpen` untouched). -/
def removeItem (id : String) (c : Cart) : Cart :=
  { c with items := c.items.filter (fun item => item.id != id) }

/-- `updateQuantity`: for `quantity ≤ 0` filter the id out, else map over the
items setting the matching item's quantity, clamped by its `maxQuantity`
when that is truthy. -/
def updateQuantity (id : String) (quantity : Int) (c : Cart) : Cart :=
  if quantity ≤ 0 then
    { c with items := c.items.filter (fun item => item.id != id) }
  else
    { c with
      items := c.items.map (fun item =>
        if item.id != id then item
        else
          let finalQuantity :=
            match item.maxQuantity with
            | some maxQty => if maxQty ≠ 0 then min quantity maxQty else quantity
            | none => quantity
          { item with quantity := finalQuantity }) }

/-- `clearCart`: empty the item list (`isOpen` untouched). -/
def clearCart (c : Cart) : Cart := { c with items := [] }

/-- `openCart`. -/
def openCart (c : Cart) : Cart := { c with isOpen := true }

/-- `closeCart`. -/
def closeCart (c : Cart) : Cart := { c with isOpen := false }

/-- `toggleCart`. -/
def toggleCart (c : Cart) : Cart := { c with isOpen := !c.isOpen }

/-- The four mutating cart operations of the aggregate. -/
inductive CartOp where
  | add (item : CartItemInput)
  | remove (id : String)
  | update (id : String) (quantity : Int)
  | clear
deriving DecidableEq

/-- Apply one operation to a cart state. -/
def CartOp.apply (op : CartOp) (c : Cart) : Cart :=
  match op with
  | .add item => addItem item c
  | .remove id => removeItem id c
  | .update id q => updateQuantity id q c
  | .clear => clearCart c

/-- Run a sequence of operations from the empty cart: the reachable states. -/
def runOps (ops : List CartOp) : Cart := ops.foldl (fun c op => op.apply c) emptyCart

/-- The persisted slice of the store: `partialize: (state) => ({ items: state.items })`. -/
structure PersistedCartState where
  items : List CartItem
deriving DecidableEq

/-- `partialize` from the persist configuration: only `items` survives. -/
def partialize (state : Cart) : PersistedCartState := { items := state.items }

/-- Reference identity-derivation algorithm exactly as the spec words it
(`deriveId`): the `-variationId` suffix is appended whenever `variationId`
is present, with no further condition. -/
def deriveIdSpec (productId : Nat) (variationId : Option Nat)
    (attributes : Option (List (String × String))) : String :=
  let id := toString productId
  let id :=
    match variationId with
    | some v => id ++ "-" ++ toString v
    | none => id
  match attributes with
  | some attrs =>
    if attrs.length > 0 then
      let attrString :=
        String.intercalate "-" ((List.insertionSort attrLe attrs).map (fun kv => kv.1 ++ ":" ++ kv.2))
      id ++ "-" ++ attrString
    else id
  | none => id

/-! ### Order-theoretic facts about the attribute comparator -/

theorem charsLe_total : ∀ a b : List Char, charsLe a b = true ∨ charsLe b a = true
  | [], _ => Or.inl rfl
  | _ :: _, [] => Or.inr rfl
  | a :: as, b :: bs => by
    simp only [charsLe]
    rcases lt_trichotomy a b with h | h | h
    · left; simp [h]
    · subst h
      simp only [lt_irrefl, if_false]
      exact charsLe_total as bs
    · right; simp [h]

theorem charsLe_trans :
    ∀ a b c : List Char, charsLe a b = true → charsLe b c = true → charsLe a c = true
  | [], _, _, _, _ => rfl
  | _ :: _, [], _, h₁, _ => by simp [charsLe] at h₁
  | _ :: _, _ :: _, [], _, h₂ => by simp [charsLe] at h₂
  | a :: as, b :: bs, c :: cs, h₁, h₂ => by
    simp only [charsLe] at h₁ h₂ ⊢
    rcases lt_trichotomy a b with hab | hab | hab
    · rcases lt_trichotomy b c with hbc | hbc | hbc
      · simp [lt_trans hab hbc]
      · subst hbc; simp [hab]
      · rw [if_neg (lt_asymm hbc), if_pos hbc] at h₂; exact absurd h₂ (by simp)
    · subst hab
      rcases lt_trichotomy a c with hac | hac | hac
      · simp [hac]
      · subst hac
        simp only [lt_irrefl, if_false] at h₁ h₂ ⊢
        exact charsLe_trans as bs cs h₁ h₂
      · rw [if_neg (lt_asymm hac), if_pos hac] at h₂; exact absurd h₂ (by simp)
    · rw [if_neg (lt_asymm hab), if_pos hab] at h₁; exact absurd h₁ (by simp)

theorem charsLe_antisymm :
    ∀ a b : List Char, charsLe a b = true → charsLe b a = true → a = b
  | [], [], _, _ => rfl
  | [], _ :: _, _, h₂ => by simp [charsLe] at h₂
  | _ :: _, [], h₁, _ => by simp [charsLe] at h₁
  | a :: as, b :: bs, h₁, h₂ => by
    simp only [charsLe] at h₁ h₂
    rcases lt_trichotomy a b with hab | hab | hab
    · rw [if_neg (lt_asymm hab), if_pos hab] at h₂; exact absurd h₂ (by simp)
    · subst hab
      simp only [lt_irrefl, if_false] at h₁ h₂
      rw [charsLe_antisymm as bs h₁ h₂]
    · rw [if_neg (lt_asymm hab), if_pos hab] at h₁; exact absurd h₁ (by simp)

instance : IsTotal (String × String) attrLe :=
  ⟨fun x y => charsLe_total x.1.data y.1.data⟩

instance : IsTrans (String × String) attrLe :=
  ⟨fun x y z => charsLe_trans x.1.data y.1.data z.1.data⟩

/-- The key order together with key distinctness: an antisymmetric
strengthening of `attrLe` available on lists whose keys are distinct. -/
def attrLeNe (x y : String × String) : Prop := attrLe x y ∧ x.1 ≠ y.1

instance : IsAntisymm (String × String) attrLeNe :=
  ⟨fun _ _ h₁ h₂ =>
    absurd (String.ext (charsLe_antisymm _ _ h₁.1 h₂.1)) h₁.2⟩

theorem sorted_attrLeNe {l : List (String × String)}
    (hs : List.Sorted attrLe l) (hn : (l.map Prod.fst).Nodup) :
    List.Sorted attrLeNe l := by
  have hkeys : l.Pairwise (fun x y : String × String => x.1 ≠ y.1) :=
    (List.pairwise_map.mp hn)
  exact (hs.and hkeys).imp (fun h => h)

theorem insertionSort_attrLe_eq_of_perm {l₁ l₂ : List (String × String)}
    (hp : l₁.Perm l₂) (hn : (l₁.map Prod.fst).Nodup) :
    List.insertionSort attrLe l₁ = List.insertionSort attrLe l₂ := by
  have hn₂ : (l₂.map Prod.fst).Nodup := ((hp.map Prod.fst).nodup_iff).mp hn
  have hperm : (List.insertionSort attrLe l₁).Perm (List.insertionSort attrLe l₂) :=
    (List.perm_insertionSort _ _).trans (hp.trans (List.perm_insertionSort _ _).symm)
  have hs₁ : List.Sorted attrLeNe (List.insertionSort attrLe l₁) :=
    sorted_attrLeNe (List.sorted_insertionSort _ _)
      (((List.perm_insertionSort attrLe l₁).map Prod.fst).nodup_iff.mpr hn)
  have hs₂ : List.Sorted attrLeNe (List.insertionSort attrLe l₂) :=
    sorted_attrLeNe (List.sorted_insertionSort _ _)
      (((List.perm_insertionSort attrLe l₂).map Prod.fst).nodup_iff.mpr hn₂)
  exact List.eq_of_perm_of_sorted hperm hs₁ hs₂

/-- Claim C2: `generateCartItemId` is attribute-order independent — for every
productId, optional variationId, and two attribute lists holding the same
key-value pairs (a permutation, with distinct keys), the derived id strings
are equal. -/
theorem C2_id_attribute_order_independent (p : Nat) (v : Option Nat)
    (a₁ a₂ : List (String × String)) (hperm : a₁.Perm a₂)
    (hnodup : (a₁.map Prod.fst).Nodup) :
    generateCartItemId p v (some a₁) = generateCartItemId p v (some a₂) := by
  have hs := insertionSort_attrLe_eq_of_perm hperm hnodup
  have hl := hperm.length_eq
  simp only [generateCartItemId, hs, hl]

/-- Witness for C2 at the spec's own example: `{A:"1", B:"2"}` versus
`{B:"2", A:"1"}`. -/
theorem C2_id_attribute_order_independent_witness :
    ([("A", "1"), ("B", "2")] : List (String × String)).Perm [("B", "2"), ("A", "1")] ∧
    (([("A", "1"), ("B", "2")] : List (String × String)).map Prod.fst).Nodup ∧
    generateCartItemId 7 (some 3) (some [("A", "1"), ("B", "2")]) =
      generateCartItemId 7 (some 3) (some [("B", "2"), ("A", "1")]) :=
  ⟨by decide, by decide,
    C2_id_attribute_order_independent 7 (some 3) _ _ (by decide) (by decide)⟩

/-- Counterexample to Claim C3 as stated: for `variationId = 0` (present but
zero) the code skips the variation suffix — JavaScript truthiness — while the
spec's reference algorithm appends it. -/
theorem C3_counterexample :
    generateCartItemId 5 (some 0) none ≠ deriveIdSpec 5 (some 0) none := by decide

/-- Claim C3 (amended): for every input whose variationId is not the value 0,
`generateCartItemId` computes exactly the spec's reference algorithm; a
present variationId equal to 0 is treated as absent. -/
theorem C3_deriveId_follows_spec (p : Nat) (v : Option Nat)
    (attrs : Option (List (String × String))) (hv : v ≠ some 0) :
    generateCartItemId p v attrs = deriveIdSpec p v attrs := by
  unfold generateCartItemId deriveIdSpec
  cases v with
  | none => rfl
  | some k =>
    have hk : k ≠ 0 := fun h => hv (by rw [h])
    simp [hk]

/-- Witness for C3 on a full-featured input. -/
theorem C3_deriveId_follows_spec_witness :
    (some 99 ≠ some 0) ∧
    generateCartItemId 5 (some 99) (some [("Size", "M"), ("Color", "Blue")]) =
      deriveIdSpec 5 (some 99) (some [("Size", "M"), ("Color", "Blue")]) :=
  ⟨by decide, C3_deriveId_follows_spec 5 (some 99) _ (by decide)⟩

/-! ### Behaviour of `addItem` -/

theorem findIdx_append_singleton {α : Type _} {p : α → Bool} {a : α} (ha : p a = true) :
    ∀ {l : List α}, (∀ x ∈ l, p x = false) → (l ++ [a]).findIdx p = l.length
  | [], _ => by simp [List.findIdx_cons, ha]
  | x :: xs, h => by
    have hx : p x = false := h x (by simp)
    have ih := findIdx_append_singleton ha (fun y hy => h y (List.mem_cons_of_mem x hy))
    simp [List.findIdx_cons, hx, ih]

/-- When no existing item carries the derived id, `addItem` appends
`{ ...item, id }` and opens the drawer. -/
theorem addItem_not_found (item : CartItemInput) (c : Cart)
    (h : ∀ x ∈ c.items,
      x.id ≠ generateCartItemId item.productId item.variationId item.attributes) :
    addItem item c =
      { items := c.items ++
          [item.withId (generateCartItemId item.productId item.variationId item.attributes)],
        isOpen := true } := by
  have hfalse : ∀ x ∈ c.items,
      (x.id == generateCartItemId item.productId item.variationId item.attributes) = false :=
    fun x hx => by simpa using h x hx
  have hidx : c.items.findIdx
      (fun i => i.id == generateCartItemId item.productId item.variationId item.attributes) =
      c.items.length := List.findIdx_eq_length.mpr hfalse
  simp only [addItem, hidx, lt_self_iff_false, dite_false]

/-- Adding twice into a cart free of the derived id: the second call merges
into the appended row, summing the quantities and clamping by the first
input's `maxQuantity` when that is truthy. -/
theorem addItem_twice_merge (c : Cart) (i₁ i₂ : CartItemInput)
    (hp : i₂.productId = i₁.productId) (hv : i₂.variationId = i₁.variationId)
    (ha : i₂.attributes = i₁.attributes)
    (hid : ∀ x ∈ c.items,
      x.id ≠ generateCartItemId i₁.productId i₁.variationId i₁.attributes) :
    (addItem i₂ (addItem i₁ c)).items =
      c.items ++
        [{ i₁.withId (generateCartItemId i₁.productId i₁.variationId i₁.attributes) with
            quantity :=
              match i₁.maxQuantity with
              | some maxQty =>
                if maxQty ≠ 0 then min (i₁.quantity + i₂.quantity) maxQty
                else i₁.quantity + i₂.quantity
              | none => i₁.quantity + i₂.quantity }] := by
  have h₁ := addItem_not_found i₁ c hid
  set idv := generateCartItemId i₁.productId i₁.variationId i₁.attributes with hidv
  set w := i₁.withId idv with hwdef
  have hfalse : ∀ x ∈ c.items, (x.id == idv) = false := fun x hx => by simpa using hid x hx
  have hidx₂ : (c.items ++ [w]).findIdx (fun i => i.id == idv) = c.items.length :=
    findIdx_append_singleton (by simp [hwdef, CartItemInput.withId]) hfalse
  have hlt : c.items.length < (c.items ++ [w]).length := by simp
  have hget : (c.items ++ [w]).get ⟨c.items.length, hlt⟩ = w := by
    rw [List.get_eq_getElem, List.getElem_append_right (le_refl _)]
    simp
  have hid₂ : generateCartItemId i₂.productId i₂.variationId i₂.attributes = idv := by
    rw [hp, hv, ha]
  rw [h₁]
  show (addItem i₂ { items := c.items ++ [w], isOpen := true }).items = _
  unfold addItem
  simp only [hid₂, hidx₂]
  rw [dif_pos (by simp)]
  simp only [hget]
  rw [List.set_append, if_neg (lt_irrefl _)]
  simp [hwdef, CartItemInput.withId]

/-- Claim C1 (merge law): starting from a cart with no item of the derived
id, adding twice with the same `(productId, variationId, attributes)` and no
`maxQuantity` yields exactly one item with that id, whose quantity is the
sum of the two requested quantities. -/
theorem C1_merge_law (c : Cart) (i₁ i₂ : CartItemInput)
    (hp : i₂.productId = i₁.productId) (hv : i₂.variationId = i₁.variationId)
    (ha : i₂.attributes = i₁.attributes)
    (hm₁ : i₁.maxQuantity = none) (_hm₂ : i₂.maxQuantity = none)
    (hid : ∀ x ∈ c.items,
      x.id ≠ generateCartItemId i₁.productId i₁.variationId i₁.attributes) :
    ((addItem i₂ (addItem i₁ c)).items.filter
        (fun x => x.id == generateCartItemId i₁.productId i₁.variationId i₁.attributes)).map
      (fun x => x.quantity) = [i₁.quantity + i₂.quantity] := by
  rw [addItem_twice_merge c i₁ i₂ hp hv ha hid, List.filter_append]
  have hnil : c.items.filter
      (fun x => x.id == generateCartItemId i₁.productId i₁.variationId i₁.attributes) = [] := by
    rw [List.filter_eq_nil_iff]
    intro x hx
    simpa using hid x hx
  rw [hnil]
  simp [hm₁, CartItemInput.withId]

/-- Claim C4 (amended): for every stock ceiling `m ≥ 1`, adding twice with
the same derived id, the first add carrying `maxQuantity = m`, with
cumulative requested quantity exceeding `m`, stores exactly quantity `m`.
(`maxQuantity = 0` is falsy in the code and imposes no ceiling.) -/
theorem C4_clamp_law (c : Cart) (i₁ i₂ : CartItemInput) (m : Int)
    (hp : i₂.productId = i₁.productId) (hv : i₂.variationId = i₁.variationId)
    (ha : i₂.attributes = i₁.attributes)
    (hm : i₁.maxQuantity = some m) (hm1 : 1 ≤ m)
    (hsum : m < i₁.quantity + i₂.quantity)
    (hid : ∀ x ∈ c.items,
      x.id ≠ generateCartItemId i₁.productId i₁.variationId i₁.attributes) :
    ((addItem i₂ (addItem i₁ c)).items.filter
        (fun x => x.id == generateCartItemId i₁.productId i₁.variationId i₁.attributes)).map
      (fun x => x.quantity) = [m] := by
  rw [addItem_twice_merge c i₁ i₂ hp hv ha hid, List.filter_append]
  have hnil : c.items.filter
      (fun x => x.id == generateCartItemId i₁.productId i₁.variationId i₁.attributes) = [] := by
    rw [List.filter_eq_nil_iff]
    intro x hx
    simpa using hid x hx
  have hne : m ≠ 0 := by omega
  rw [hnil]
  simp [hm, hne, CartItemInput.withId, min_eq_right (le_of_lt hsum)]

/-- Witness for C4: variant product 5-99 with ceiling 2, adding quantities
1 and 2 (cumulative 3 > 2) stores exactly 2. -/
theorem C4_clamp_law_witness :
    (1 : Int) ≤ 2 ∧ (2 : Int) < 1 + 2 ∧
    ((addItem
        { productId := 5, variationId := some 99,
          attributes := some [("Size", "M"), ("Color", "Blue")], price := 40, quantity := 2 }
        (addItem
          { productId := 5, variationId := some 99,
            attributes := some [("Size", "M"), ("Color", "Blue")], price := 40, quantity := 1,
            maxQuantity := some 2 }
          emptyCart)).items.filter
          (fun x => x.id == generateCartItemId 5 (some 99)
            (some [("Size", "M"), ("Color", "Blue")]))).map
      (fun x => x.quantity) = [2] :=
  ⟨by decide, by decide,
    C4_clamp_law emptyCart
      { productId := 5, variationId := some 99,
        attributes := some [("Size", "M"), ("Color", "Blue")], price := 40, quantity := 1,
        maxQuantity := some 2 }
      { productId := 5, variationId := some 99,
        attributes := some [("Size", "M"), ("Color", "Blue")], price := 40, quantity := 2 }
      2 rfl rfl rfl rfl (by decide) (by decide)
      (by intro x hx; simp [emptyCart] at hx)⟩

/-- The candidate used for the C4 counterexample: a stock ceiling of 0. -/
def zeroCeilingInput : CartItemInput :=
  { productId := 3, price := 10, quantity := 1, maxQuantity := some 0 }

/-- Counterexample to Claim C4 as stated: with `maxQuantity = 0` and
cumulative requested quantity `1 + 1 = 2 > 0`, the stored quantity is 2, not
the ceiling 0 — the code treats a 0 ceiling as falsy and never clamps. -/
theorem C4_counterexample :
    (0 : Int) < zeroCeilingInput.quantity + zeroCeilingInput.quantity ∧
    ((addItem zeroCeilingInput (addItem zeroCeilingInput emptyCart)).items.filter
        (fun x => x.id == generateCartItemId zeroCeilingInput.productId
          zeroCeilingInput.variationId zeroCeilingInput.attributes)).map
      (fun x => x.quantity) = [2] ∧ (2 : Int) ≠ 0 :=
  ⟨by decide, by decide, by decide⟩

/-! ### Reachability invariants -/

theorem set_getElem_self {α : Type _} (l : List α) (i : Nat) (h : i < l.length) :
    l.set i l[i] = l := by
  apply List.ext_getElem?
  intro n
  by_cases hn : n = i
  · subst hn; rw [List.getElem?_set_self h, List.getElem?_eq_getElem h]
  · rw [List.getElem?_set_ne (fun he => hn he.symm)]

/-- An `addItem` payload whose stock ceiling, when present, is positive and
not exceeded by the requested quantity. -/
def SafeInput (inp : CartItemInput) : Prop :=
  ∀ m, inp.maxQuantity = some m → 1 ≤ m ∧ inp.quantity ≤ m

/-- An operation whose payload (for `add`) is safe. -/
def SafeOp : CartOp → Prop
  | .add inp => SafeInput inp
  | _ => True

/-- The stock-ceiling invariant, strengthened to be inductive: every present
ceiling is positive and bounds the stored quantity. -/
def MaxRespecting (c : Cart) : Prop :=
  ∀ i ∈ c.items, ∀ m, i.maxQuantity = some m → 1 ≤ m ∧ i.quantity ≤ m

theorem maxRespecting_apply {c : Cart} {op : CartOp} (hop : SafeOp op)
    (hc : MaxRespecting c) : MaxRespecting (op.apply c) := by
  cases op with
  | add inp =>
    simp only [CartOp.apply, addItem]
    split
    case isTrue h =>
      intro i hi m hm
      rcases List.mem_or_eq_of_mem_set hi with hmem | rfl
      · exact hc i hmem m hm
      · simp only at hm
        have hmem : c.items.get ⟨_, h⟩ ∈ c.items := List.get_mem _ _ _
        obtain ⟨h1, h2⟩ := hc _ hmem m hm
        refine ⟨h1, ?_⟩
        simp only [hm]
        rw [if_pos (by omega : m ≠ 0)]
        exact min_le_right _ _
    case isFalse h =>
      intro i hi m hm
      rcases List.mem_append.mp hi with hmem | hmem
      · exact hc i hmem m hm
      · have heq := List.mem_singleton.mp hmem
        subst heq
        exact hop m hm
  | remove id =>
    intro i hi m hm
    exact hc i (List.mem_of_mem_filter hi) m hm
  | update id q =>
    simp only [CartOp.apply, updateQuantity]
    split
    · intro i hi m hm
      exact hc i (List.mem_of_mem_filter hi) m hm
    case isFalse hq =>
      intro i hi m hm
      rcases List.mem_map.mp hi with ⟨j, hj, rfl⟩
      by_cases hjid : (j.id != id) = true
      · rw [if_pos hjid] at hm ⊢
        exact hc j hj m hm
      · rw [if_neg hjid] at hm ⊢
        simp only at hm
        obtain ⟨h1, h2⟩ := hc j hj m hm
        refine ⟨h1, ?_⟩
        simp only [hm]
        rw [if_pos (by omega : m ≠ 0)]
        exact min_le_right _ _
  | clear =>
    intro i hi m _
    simp [CartOp.apply, clearCart] at hi

theorem foldl_maxRespecting :
    ∀ (ops : List CartOp) (c : Cart), (∀ op ∈ ops, SafeOp op) → MaxRespecting c →
      MaxRespecting (ops.foldl (fun c op => op.apply c) c)
  | [], _, _, hc => hc
  | op :: rest, _, h, hc =>
    foldl_maxRespecting rest _ (fun o ho => h o (List.mem_cons_of_mem _ ho))
      (maxRespecting_apply (h op (List.mem_cons_self _ _)) hc)

/-- Claim C5 (amended): in every state reachable from the empty cart by
`addItem`/`removeItem`/`updateQuantity`/`clearCart`, provided every `addItem`
payload with a defined ceiling has `1 ≤ maxQuantity` and requests at most
`maxQuantity` (the code does not clamp the first add of a line and treats a
0 ceiling as absent), every item with a defined ceiling satisfies
`quantity ≤ maxQuantity`. -/
theorem C5_stock_ceiling (ops : List CartOp) (h : ∀ op ∈ ops, SafeOp op) :
    ∀ i ∈ (runOps ops).items, ∀ m, i.maxQuantity = some m → i.quantity ≤ m :=
  fun i hi m hm =>
    (foldl_maxRespecting ops emptyCart h (fun i hi => by simp [emptyCart] at hi) i hi m hm).2

/-- Witness for C5: one safe add (quantity 1, ceiling 2). -/
theorem C5_stock_ceiling_witness :
    (∀ op ∈ [CartOp.add { productId := 1, price := 10, quantity := 1, maxQuantity := some 2 }],
      SafeOp op) ∧
    ∀ i ∈ (runOps
        [CartOp.add { productId := 1, price := 10, quantity := 1, maxQuantity := some 2 }]).items,
      ∀ m, i.maxQuantity = some m → i.quantity ≤ m :=
  have hsafe : ∀ op ∈
      [CartOp.add { productId := 1, price := 10, quantity := 1, maxQuantity := some 2 }],
      SafeOp op := by
    intro op hop
    rw [List.mem_singleton] at hop
    subst hop
    intro m hm
    cases hm
    exact ⟨by decide, by decide⟩
  ⟨hsafe, C5_stock_ceiling _ hsafe⟩

/-- The candidate used for the C5 counterexample: first add over the ceiling. -/
def overAddInput : CartItemInput :=
  { productId := 2, price := 10, quantity := 5, maxQuantity := some 2 }

/-- Counterexample to Claim C5 as stated: a single `addItem` of quantity 5
with `maxQuantity = 2` is appended unclamped — the new-item branch of
`addItem` never clamps — so the reachable state stores quantity 5 > 2. -/
theorem C5_counterexample :
    ((runOps [CartOp.add overAddInput]).items.map (fun i => (i.quantity, i.maxQuantity))) =
      [(5, some 2)] ∧ ¬ ((5 : Int) ≤ 2) :=
  ⟨by decide, by decide⟩

/-- Replacing a list entry by an item with the same id leaves the id list
nodup. -/
theorem nodup_ids_set {l : List CartItem} {i : Nat} {u : CartItem} (h : i < l.length)
    (hu : u.id = l[i].id) (hl : (l.map (fun x => x.id)).Nodup) :
    ((l.set i u).map (fun x => x.id)).Nodup := by
  have hi : i < (l.map (fun x : CartItem => x.id)).length := by simpa using h
  have hsame : u.id = (l.map (fun x : CartItem => x.id))[i] := by rw [hu]; simp
  rw [List.map_set, hsame, set_getElem_self (l.map (fun x : CartItem => x.id)) i hi]
  exact hl

theorem uniqueIds_apply {c : Cart} (op : CartOp)
    (hc : (c.items.map (fun i => i.id)).Nodup) :
    (((op.apply c).items.map (fun i => i.id)).Nodup) := by
  cases op with
  | add inp =>
    simp only [CartOp.apply, addItem]
    split
    case isTrue h =>
      exact nodup_ids_set h rfl hc
    case isFalse h =>
      rw [List.map_append]
      have hidx : c.items.findIdx
          (fun i => i.id == generateCartItemId inp.productId inp.variationId inp.attributes) =
          c.items.length :=
        le_antisymm (List.findIdx_le_length _) (not_lt.mp h)
      have hnotmem : ∀ x ∈ c.items,
          x.id ≠ generateCartItemId inp.productId inp.variationId inp.attributes := by
        intro x hx
        have := List.findIdx_eq_length.mp hidx x hx
        simpa using this
      rw [List.nodup_append]
      refine ⟨hc, by simp, ?_⟩
      intro a ha hb
      rcases List.mem_map.mp ha with ⟨x, hx, rfl⟩
      have : x.id = generateCartItemId inp.productId inp.variationId inp.attributes := by
        simpa [CartItemInput.withId] using hb
      exact hnotmem x hx this
  | remove id =>
    exact ((List.filter_sublist _).map _).nodup hc
  | update id q =>
    simp only [CartOp.apply, updateQuantity]
    split
    · exact ((List.filter_sublist _).map _).nodup hc
    · rw [List.map_map]
      have hfg : ∀ a ∈ c.items,
          ((fun i : CartItem => i.id) ∘ (fun item : CartItem =>
            if item.id != id then item
            else
              { item with quantity :=
                  match item.maxQuantity with
                  | some maxQty => if maxQty ≠ 0 then min q maxQty else q
                  | none => q })) a = a.id := by
        intro a _
        simp only [Function.comp_apply]
        by_cases hcase : (a.id != id) = true
        · rw [if_pos hcase]
        · rw [if_neg hcase]
      rw [List.map_congr_left hfg]
      exact hc
  | clear =>
    simp [CartOp.apply, clearCart]

theorem foldl_uniqueIds :
    ∀ (ops : List CartOp) (c : Cart), ((c.items.map (fun i => i.id)).Nodup) →
      (((ops.foldl (fun c op => op.apply c) c).items.map (fun i => i.id)).Nodup)
  | [], _, hc => hc
  | op :: rest, _, hc => foldl_uniqueIds rest _ (uniqueIds_apply op hc)

/-- Claim C6 (id-uniqueness invariant): in every cart state reachable from
the empty cart by the four operations, no two entries of `items` share an
`id` — an `addItem` whose derived id matches an existing row updates that
row in place rather than appending a duplicate. -/
theorem C6_unique_ids (ops : List CartOp) :
    ((runOps ops).items.map (fun i => i.id)).Nodup :=
  foldl_uniqueIds ops emptyCart (by simp [emptyCart])

/-! ### Persistence: `partialize` and the JSON round-trip

The durable snapshot is produced by `JSON.stringify` on the partialized
state and read back by `JSON.parse`; we model the JSON value space with
exact numbers (`ℚ`) and structural strings, and the wire step
`stringify`/`parse` as the identity on this value space. -/

/-- A JSON value. Undefined-valued optional properties are omitted by
`JSON.stringify`, so encoders below skip absent optionals. -/
inductive Json where
  | null
  | bool (b : Bool)
  | num (q : ℚ)
  | str (s : String)
  | arr (elems : List Json)
  | obj (fields : List (String × Json))

/-- Encode an attribute record as a JSON object of string values. -/
def encodeAttrs (attrs : List (String × String)) : Json :=
  Json.obj (attrs.map (fun kv => (kv.1, Json.str kv.2)))

/-- Encode one cart item as a JSON object (absent optionals omitted). -/
def encodeItem (item : CartItem) : Json :=
  Json.obj
    ([("id", Json.str item.id), ("productId", Json.num (item.productId : ℚ))]
      ++ (match item.variationId with
          | some v => [("variationId", Json.num (v : ℚ))]
          | none => [])
      ++ [("name", Json.str item.name), ("slug", Json.str item.slug),
          ("price", Json.num item.price)]
      ++ (match item.regularPrice with
          | some p => [("regularPrice", Json.num p)]
          | none => [])
      ++ [("quantity", Json.num (item.quantity : ℚ)), ("image", Json.str item.image)]
      ++ (match item.attributes with
          | some attrs => [("attributes", encodeAttrs attrs)]
          | none => [])
      ++ (match item.maxQuantity with
          | some m => [("maxQuantity", Json.num (m : ℚ))]
          | none => []))

/-- Encode the persisted item list. -/
def encodeItems (items : List CartItem) : Json := Json.arr (items.map encodeItem)

def asNat : Json → Option Nat
  | Json.num q => if q.den = 1 ∧ 0 ≤ q.num then some q.num.toNat else none
  | _ => none

def asInt : Json → Option Int
  | Json.num q => if q.den = 1 then some q.num else none
  | _ => none

def asRat : Json → Option ℚ
  | Json.num q => some q
  | _ => none

def asStr : Json → Option String
  | Json.str s => some s
  | _ => none

def decodeAttrPairs : List (String × Json) → Option (List (String × String))
  | [] => some []
  | (k, Json.str v) :: rest => (decodeAttrPairs rest).map (fun tail => (k, v) :: tail)
  | _ => none

def decodeAttrs : Json → Option (List (String × String))
  | Json.obj fields => decodeAttrPairs fields
  | _ => none

/-- Decode an optional property: an absent key is `none`, a present key must
decode. -/
def decodeOpt {β : Type _} (dec : Json → Option β) (fields : List (String × Json))
    (key : String) : Option (Option β) :=
  match List.lookup key fields with
  | none => some none
  | some j => (dec j).map some

def decodeItem : Json → Option CartItem
  | Json.obj fields => do
    let id ← (List.lookup "id" fields).bind asStr
    let productId ← (List.lookup "productId" fields).bind asNat
    let variationId ← decodeOpt asNat fields "variationId"
    let name ← (List.lookup "name" fields).bind asStr
    let slug ← (List.lookup "slug" fields).bind asStr
    let price ← (List.lookup "price" fields).bind asRat
    let regularPrice ← decodeOpt asRat fields "regularPrice"
    let quantity ← (List.lookup "quantity" fields).bind asInt
    let image ← (List.lookup "image" fields).bind asStr
    let attributes ← decodeOpt decodeAttrs fields "attributes"
    let maxQuantity ← decodeOpt asInt fields "maxQuantity"
    some { id := id, productId := productId, variationId := variationId, name := name,
           slug := slug, price := price, regularPrice := regularPrice, quantity := quantity,
           image := image, attributes := attributes, maxQuantity := maxQuantity }
  | _ => none

def decodeItems : Json → Option (List CartItem)
  | Json.arr elems => elems.mapM decodeItem
  | _ => none

theorem decodeAttrPairs_encode (attrs : List (String × String)) :
    decodeAttrPairs (attrs.map (fun kv => (kv.1, Json.str kv.2))) = some attrs := by
  induction attrs with
  | nil => rfl
  | cons kv rest ih =>
    cases kv
    simp [decodeAttrPairs, ih]

theorem decodeItem_encodeItem (item : CartItem) :
    decodeItem (encodeItem item) = some item := by
  obtain ⟨id, productId, variationId, name, slug, price, regularPrice, quantity, image,
    attributes, maxQuantity⟩ := item
  cases variationId <;> cases regularPrice <;> cases attributes <;> cases maxQuantity <;>
    simp [decodeItem, encodeItem, encodeAttrs, decodeOpt, asStr, asNat, asInt, asRat,
      decodeAttrs, decodeAttrPairs_encode, List.lookup, Rat.den_natCast, Rat.num_natCast,
      Rat.den_intCast, Rat.num_intCast, Int.toNat_natCast]

theorem decodeItems_encodeItems (items : List CartItem) :
    decodeItems (encodeItems items) = some items := by
  induction items with
  | nil => rfl
  | cons i rest ih =>
    simp only [decodeItems, encodeItems, List.map_cons, List.mapM_cons] at ih ⊢
    rw [decodeItem_encodeItem]
    simp only [Option.bind_eq_bind, Option.some_bind] at ih ⊢
    rw [ih]
    rfl

/-- Claim C9: the persisted snapshot carries exactly the items sequence and
is insensitive to `isOpen`, and serializing the item list and deserializing
it back reproduces the identical list, every field preserved. -/
theorem C9_persistence_roundtrip (items : List CartItem) (b₁ b₂ : Bool) :
    partialize { items := items, isOpen := b₁ } = partialize { items := items, isOpen := b₂ } ∧
    (partialize { items := items, isOpen := b₁ }).items = items ∧
    decodeItems (encodeItems items) = some items :=
  ⟨rfl, rfl, decodeItems_encodeItems items⟩

/-! ### Update/remove equivalence, totals, merge frame -/

/-- Claim C7: for every cart, id and quantity `q ≤ 0`, `updateQuantity`
produces exactly the item sequence `removeItem` produces; when no item
carries the id, both leave the items unchanged (a no-op, not an error). -/
theorem C7_nonpositive_update_is_removal (c : Cart) (id : String) (q : Int)
    (hq : q ≤ 0) :
    (updateQuantity id q c).items = (removeItem id c).items ∧
    ((∀ x ∈ c.items, x.id ≠ id) →
      (updateQuantity id q c).items = c.items ∧ (removeItem id c).items = c.items) := by
  have heq : (updateQuantity id q c).items = c.items.filter (fun item => item.id != id) := by
    simp only [updateQuantity, if_pos hq]
  have hrm : (removeItem id c).items = c.items.filter (fun item => item.id != id) := rfl
  refine ⟨by rw [heq, hrm], fun habs => ?_⟩
  have hfil : c.items.filter (fun item => item.id != id) = c.items := by
    rw [List.filter_eq_self]
    intro a ha
    simpa using habs a ha
  exact ⟨by rw [heq, hfil], by rw [hrm, hfil]⟩

/-- A concrete stored line used by the C7 and C10 witnesses. -/
def sampleItem : CartItem :=
  { id := "9", productId := 9, variationId := none, name := "Shirt", slug := "shirt",
    price := 25, regularPrice := none, quantity := 2, image := "x", attributes := none,
    maxQuantity := none }

/-- Witness for C7: cart holding product 9, updating absent id "1" with
quantity 0. -/
theorem C7_nonpositive_update_is_removal_witness :
    (0 : Int) ≤ 0 ∧
    ((updateQuantity "1" 0 { items := [sampleItem], isOpen := false }).items =
        (removeItem "1" { items := [sampleItem], isOpen := false }).items ∧
      ((∀ x ∈ ({ items := [sampleItem], isOpen := false } : Cart).items, x.id ≠ "1") →
        (updateQuantity "1" 0 { items := [sampleItem], isOpen := false }).items =
            ({ items := [sampleItem], isOpen := false } : Cart).items ∧
          (removeItem "1" { items := [sampleItem], isOpen := false }).items =
            ({ items := [sampleItem], isOpen := false } : Cart).items)) :=
  ⟨by decide, C7_nonpositive_update_is_removal { items := [sampleItem], isOpen := false } "1" 0
    (by decide)⟩

theorem calculateTotals_spec :
    ∀ (items : List CartItem) (acc : Totals),
      (items.foldl (fun acc item =>
          { total := acc.total + item.price * (item.quantity : ℚ)
            subtotal := acc.subtotal + item.price * (item.quantity : ℚ)
            itemCount := acc.itemCount + item.quantity }) acc).total =
        acc.total + (items.map (fun i => i.price * (i.quantity : ℚ))).sum ∧
      (items.foldl (fun acc item =>
          { total := acc.total + item.price * (item.quantity : ℚ)
            subtotal := acc.subtotal + item.price * (item.quantity : ℚ)
            itemCount := acc.itemCount + item.quantity }) acc).itemCount =
        acc.itemCount + (items.map (fun i => i.quantity)).sum
  | [], acc => by simp
  | i :: rest, acc => by
    obtain ⟨ht, hc⟩ := calculateTotals_spec rest
      { total := acc.total + i.price * (i.quantity : ℚ)
        subtotal := acc.subtotal + i.price * (i.quantity : ℚ)
        itemCount := acc.itemCount + i.quantity }
    constructor
    · rw [List.foldl_cons, ht]
      simp [add_assoc]
    · rw [List.foldl_cons, hc]
      simp [add_assoc]

/-- Claim C8 (total purity): in every reachable state the `total` and
`itemCount` getters equal `Σ price·quantity` and `Σ quantity` recomputed
from the current items — they are pure functions of `items`, the state
stores no separate total — and on the empty cart both are 0. -/
theorem C8_total_purity (ops : List CartOp) :
    (runOps ops).total =
      ((runOps ops).items.map (fun i => i.price * (i.quantity : ℚ))).sum ∧
    (runOps ops).itemCount = ((runOps ops).items.map (fun i => i.quantity)).sum ∧
    emptyCart.total = 0 ∧ emptyCart.itemCount = 0 := by
  obtain ⟨ht, hc⟩ := calculateTotals_spec (runOps ops).items
    { total := 0, subtotal := 0, itemCount := 0 }
  refine ⟨?_, ?_, rfl, rfl⟩
  · rw [Cart.total, calculateTotals, ht, zero_add]
  · rw [Cart.itemCount, calculateTotals, hc, zero_add]

/-- Claim C10 (merge frame effect): when `addItem` merges into an existing
row, the item list keeps its length, every other position is untouched, and
the row at the merge position keeps every field except `quantity` — id,
product, variation, name, slug, price, regularPrice, image, attributes and
maxQuantity all stay those captured at the first add. -/
theorem C10_merge_frame (c : Cart) (inp : CartItemInput)
    (h : c.items.findIdx
      (fun i => i.id == generateCartItemId inp.productId inp.variationId inp.attributes) <
      c.items.length) :
    (addItem inp c).items.length = c.items.length ∧
    (∀ j : Nat,
      j ≠ c.items.findIdx
        (fun i => i.id == generateCartItemId inp.productId inp.variationId inp.attributes) →
      (addItem inp c).items[j]? = c.items[j]?) ∧
    ∃ e e',
      c.items[c.items.findIdx
        (fun i => i.id == generateCartItemId inp.productId inp.variationId inp.attributes)]? =
        some e ∧
      (addItem inp c).items[c.items.findIdx
        (fun i => i.id == generateCartItemId inp.productId inp.variationId inp.attributes)]? =
        some e' ∧
      e'.id = e.id ∧ e'.productId = e.productId ∧ e'.variationId = e.variationId ∧
      e'.name = e.name ∧ e'.slug = e.slug ∧ e'.price = e.price ∧
      e'.regularPrice = e.regularPrice ∧ e'.image = e.image ∧
      e'.attributes = e.attributes ∧ e'.maxQuantity = e.maxQuantity := by
  simp only [addItem]
  rw [dif_pos h]
  refine ⟨by simp, fun j hj => List.getElem?_set_ne (fun he => hj he.symm), ?_⟩
  refine ⟨c.items.get ⟨_, h⟩, _, ?_, List.getElem?_set_self h,
    rfl, rfl, rfl, rfl, rfl, rfl, rfl, rfl, rfl, rfl⟩
  rw [List.getElem?_eq_getElem h]
  rfl

/-- Witness for C10: merging a second add of product 9 into a one-item cart. -/
theorem C10_merge_frame_witness :
    (({ items := [sampleItem], isOpen := false } : Cart).items.findIdx
      (fun i => i.id == generateCartItemId 9 none none) <
      ({ items := [sampleItem], isOpen := false } : Cart).items.length) ∧
    ((addItem { productId := 9, price := 30, quantity := 1 }
        { items := [sampleItem], isOpen := false }).items.length =
      ({ items := [sampleItem], isOpen := false } : Cart).items.length ∧
    (∀ j : Nat,
      j ≠ ({ items := [sampleItem], isOpen := false } : Cart).items.findIdx
        (fun i => i.id == generateCartItemId
          ({ productId := 9, price := 30, quantity := 1 } : CartItemInput).productId
          ({ productId := 9, price := 30, quantity := 1 } : CartItemInput).variationId
          ({ productId := 9, price := 30, quantity := 1 } : CartItemInput).attributes) →
      (addItem { productId := 9, price := 30, quantity := 1 }
        { items := [sampleItem], isOpen := false }).items[j]? =
        ({ items := [sampleItem], isOpen := false } : Cart).items[j]?) ∧
    ∃ e e',
      ({ items := [sampleItem], isOpen := false } : Cart).items[
        ({ items := [sampleItem], isOpen := false } : Cart).items.findIdx
        (fun i => i.id == generateCartItemId
          ({ productId := 9, price := 30, quantity := 1 } : CartItemInput).productId
          ({ productId := 9, price := 30, quantity := 1 } : CartItemInput).variationId
          ({ productId := 9, price := 30, quantity := 1 } : CartItemInput).attributes)]? =
        some e ∧
      (addItem { productId := 9, price := 30, quantity := 1 }
        { items := [sampleItem], isOpen := false }).items[
        ({ items := [sampleItem], isOpen := false } : Cart).items.findIdx
        (fun i => i.id == generateCartItemId
          ({ productId := 9, price := 30, quantity := 1 } : CartItemInput).productId
          ({ productId := 9, price := 30, quantity := 1 } : CartItemInput).variationId
          ({ productId := 9, price := 30, quantity := 1 } : CartItemInput).attributes)]? =
        some e' ∧
      e'.id = e.id ∧ e'.productId = e.productId ∧ e'.variationId = e.variationId ∧
      e'.name = e.name ∧ e'.slug = e.slug ∧ e'.price = e.price ∧
      e'.regularPrice = e.regularPrice ∧ e'.image = e.image ∧
      e'.attributes = e.attributes ∧ e'.maxQuantity = e.maxQuantity) :=
  ⟨by decide,
    C10_merge_frame { items := [sampleItem], isOpen := false }
      { productId := 9, price := 30, quantity := 1 } (by decide)⟩

/-- Witness for C1: the spec's first example scenario (two adds of product
10, quantities 1 and 2, merging to quantity 3). -/
theorem C1_merge_law_witness :
    ((addItem { productId := 10, price := 25, quantity := 2 }
        (addItem { productId := 10, price := 25, quantity := 1 } emptyCart)).items.filter
          (fun x => x.id ==
            generateCartItemId
              ({ productId := 10, price := 25, quantity := 1 } : CartItemInput).productId
              ({ productId := 10, price := 25, quantity := 1 } : CartItemInput).variationId
              ({ productId := 10, price := 25, quantity := 1 } : CartItemInput).attributes)).map
      (fun x => x.quantity) =
      [({ productId := 10, price := 25, quantity := 1 } : CartItemInput).quantity +
        ({ productId := 10, price := 25, quantity := 2 } : CartItemInput).quantity] :=
  C1_merge_law emptyCart
    { productId := 10, price := 25, quantity := 1 }
    { productId := 10, price := 25, quantity := 2 }
    rfl rfl rfl rfl rfl (by intro x hx; simp [emptyCart] at hx)
